import Mathlib

/-!
# mbed `PortOut` (drivers/PortOut.h)

A shallow embedding of the `mbed::PortOut` class.  The class owns one private
`port_t _port` member and forwards every operation to the hardware abstraction
layer (`port_init`, `port_write`, `port_read`) declared in `hal/port_api.h`, plus
the critical-section primitives of `platform/mbed_critical.h`.

* The HAL is not part of `PortOut.h`; it is a parameter (`Hal`) of every operation.
  Its functions take the address of the `port_t` object (`Ref`) and a world state.
* `int` is modelled by `Int`; `toInt32` is the conversion of an out-of-range value
  to a 32-bit `int`.
* `traced` instruments any HAL with a log of the calls made on it, so that
  statements of the form "exactly these HAL calls, in this order" can be stated.
* `exactHal`, `maskHal` and `maskReadHal` are test doubles described by the specification.
-/

set_option linter.dupNamespace false

namespace mbed

/-! ## Machine integers -/

/-- Conversion of an integer value to a 32-bit two's-complement `int`. -/
def toInt32 (x : Int) : Int := (x + 2 ^ 31) % 2 ^ 32 - 2 ^ 31

/-! ## The HAL boundary -/

/-- Pin direction, as in `PinNames.h` (`PIN_INPUT`, `PIN_OUTPUT`). -/
inductive PinDirection where
  | PIN_INPUT : PinDirection
  | PIN_OUTPUT : PinDirection
  deriving DecidableEq, Repr

/-- The HAL functions `PortOut` calls.  `Ref` is the address of a `port_t` object,
`σ` the state of the world the HAL acts on (registers, the `port_t` objects, the
interrupt mask).  `port_read` takes a non-const pointer, so it may change the state. -/
structure Hal (σ Ref PortName : Type) where
  core_util_critical_section_enter : σ → σ
  core_util_critical_section_exit : σ → σ
  port_init : Ref → PortName → Int → PinDirection → σ → σ
  port_write : Ref → Int → σ → σ
  port_read : Ref → σ → Int × σ

/-- One call across the HAL boundary, with its arguments. -/
inductive HalCall (Ref PortName : Type) where
  | critical_section_enter : HalCall Ref PortName
  | critical_section_exit : HalCall Ref PortName
  | port_init (obj : Ref) (port : PortName) (mask : Int) (dir : PinDirection) : HalCall Ref PortName
  | port_write (obj : Ref) (value : Int) : HalCall Ref PortName
  | port_read (obj : Ref) : HalCall Ref PortName
  deriving DecidableEq, Repr

/-- The same HAL, additionally appending every call made on it to a log. -/
def traced {σ Ref PortName : Type} (hal : Hal σ Ref PortName) :
    Hal (σ × List (HalCall Ref PortName)) Ref PortName where
  core_util_critical_section_enter := fun st =>
    (hal.core_util_critical_section_enter st.1, st.2 ++ [HalCall.critical_section_enter])
  core_util_critical_section_exit := fun st =>
    (hal.core_util_critical_section_exit st.1, st.2 ++ [HalCall.critical_section_exit])
  port_init := fun obj port mask dir st =>
    (hal.port_init obj port mask dir st.1, st.2 ++ [HalCall.port_init obj port mask dir])
  port_write := fun obj value st =>
    (hal.port_write obj value st.1, st.2 ++ [HalCall.port_write obj value])
  port_read := fun obj st =>
    ((hal.port_read obj st.1).1, ((hal.port_read obj st.1).2, st.2 ++ [HalCall.port_read obj]))

/-! ## The class -/

/-- A `PortOut` object: its only member is the private `port_t _port`; the HAL is
handed its address. -/
structure PortOut (Ref : Type) where
  _port : Ref
  deriving DecidableEq, Repr

/-- The default argument `mask = 0xFFFFFFFF` of the constructor, converted to `int`. -/
def defaultMask : Int := toInt32 0xFFFFFFFF

namespace PortOut

variable {σ Ref PortName : Type}

/-- Constructor `PortOut(PortName port, int mask)`. -/
def PortOut (hal : Hal σ Ref PortName) (this : mbed.PortOut Ref) (port : PortName) (mask : Int)
    (s : σ) : σ :=
  let s1 := hal.core_util_critical_section_enter s
  let s2 := hal.port_init this._port port mask PinDirection.PIN_OUTPUT s1
  hal.core_util_critical_section_exit s2

/-- Constructor called with a port only: `mask` takes its default value. -/
def PortOut_default (hal : Hal σ Ref PortName) (this : mbed.PortOut Ref) (port : PortName)
    (s : σ) : σ :=
  PortOut.PortOut hal this port defaultMask s

/-- Method `void write(int value)`. -/
def write (hal : Hal σ Ref PortName) (this : mbed.PortOut Ref) (value : Int) (s : σ) : σ :=
  hal.port_write this._port value s

/-- Method `int read()`. -/
def read (hal : Hal σ Ref PortName) (this : mbed.PortOut Ref) (s : σ) : Int × σ :=
  hal.port_read this._port s

/-- Operator `PortOut &operator= (int value)`: the returned reference is `*this`. -/
def operator_assign_int (hal : Hal σ Ref PortName) (this : mbed.PortOut Ref) (value : Int)
    (s : σ) : mbed.PortOut Ref × σ :=
  let s1 := write hal this value s
  (this, s1)

/-- Operator `PortOut &operator= (PortOut &rhs)`: the returned reference is `*this`. -/
def operator_assign (hal : Hal σ Ref PortName) (this rhs : mbed.PortOut Ref)
    (s : σ) : mbed.PortOut Ref × σ :=
  let r := read hal rhs s
  let s2 := write hal this r.1 r.2
  (this, s2)

/-- Conversion `operator int()`. -/
def operator_int (hal : Hal σ Ref PortName) (this : mbed.PortOut Ref) (s : σ) : Int × σ :=
  read hal this s

/-- The expression `a = b = v` with `a`, `b` of type `PortOut` and `v` an `int`:
assignment associates to the right, `b = v` selects `operator= (int)` and yields
`PortOut &`, for which `operator= (PortOut &)` is the exact match. -/
def chained_assign (hal : Hal σ Ref PortName) (a b : mbed.PortOut Ref) (v : Int)
    (s : σ) : mbed.PortOut Ref × σ :=
  let r := operator_assign_int hal b v s
  operator_assign hal a r.1 r.2

end PortOut

/-! ## Test doubles for the HAL -/

/-- Modelled from the spec: the contents of a `port_t` object of the test doubles
(`hal/port_api.h` and the target's `objects.h` are not part of `PortOut.h`): the port
the object was initialised for and the pin mask given at construction. -/
structure port_t (PortName : Type) where
  port : PortName
  mask : Int
  deriving DecidableEq, Repr

/-- Modelled from the spec: the world of the test doubles: the `port_t` objects in
memory, one output register per port, and the critical-section nesting depth. -/
structure MockState (Ref PortName : Type) where
  objs : Ref → port_t PortName
  reg : PortName → Int
  depth : Nat

/-- Modelled from the spec: "a mock HAL that stores exactly what it's told".
`port_init` records port and mask in the object, `port_write` stores the value in
the port's output register unchanged, `port_read` returns that register. -/
def exactHal {Ref PortName : Type} [DecidableEq Ref] [DecidableEq PortName] :
    Hal (MockState Ref PortName) Ref PortName where
  core_util_critical_section_enter := fun s => { s with depth := s.depth + 1 }
  core_util_critical_section_exit := fun s => { s with depth := s.depth - 1 }
  port_init := fun obj port mask _ s =>
    { s with objs := Function.update s.objs obj { port := port, mask := mask } }
  port_write := fun obj value s =>
    { s with reg := Function.update s.reg (s.objs obj).port value }
  port_read := fun obj s => (s.reg (s.objs obj).port, s)

/-- Modelled from the spec: the register value after a masked write: the bits of
`old` outside `mask` together with the bits of `value` inside `mask`. -/
def mergeBits (old value mask : Int) : Int :=
  Int.lor (Int.land old (Int.lnot mask)) (Int.land value mask)

/-- Modelled from the spec: a mock HAL that applies the construction mask on write
("masking is assumed handled by the HAL based on the mask set at construction";
mask bit 0 - ignore, 1 - include): `port_write` replaces the register bits selected
by the object's mask and keeps the others, `port_read` returns "the port's current
output-register value". -/
def maskHal {Ref PortName : Type} [DecidableEq Ref] [DecidableEq PortName] :
    Hal (MockState Ref PortName) Ref PortName where
  core_util_critical_section_enter := fun s => { s with depth := s.depth + 1 }
  core_util_critical_section_exit := fun s => { s with depth := s.depth - 1 }
  port_init := fun obj port mask _ s =>
    { s with objs := Function.update s.objs obj { port := port, mask := mask } }
  port_write := fun obj value s =>
    let d := s.objs obj
    { s with reg := Function.update s.reg d.port (mergeBits (s.reg d.port) value d.mask) }
  port_read := fun obj s => (s.reg (s.objs obj).port, s)

/-- A mock world with all registers clear and every object zeroed. -/
def MockState.zero : MockState Nat Nat where
  objs := fun _ => { port := 0, mask := 0 }
  reg := fun _ => 0
  depth := 0

/-- A mock world over the masking test double: from `MockState.zero`, handle `0` is
constructed on port 0 with mask `0x0F` and handle `1` on port 1 with mask `0xF0`. -/
def twoPorts : MockState Nat Nat :=
  PortOut.PortOut maskHal (PortOut.mk 1) 1 0xF0
    (PortOut.PortOut maskHal (PortOut.mk 0) 0 0x0F MockState.zero)

/-- Modelled from the spec: the masking test double with a masked read (the mask
defines "which of the port's bits are writable/readable as outputs"): `port_write` as
in `maskHal`, `port_read` returns only the register bits selected by the object's mask. -/
def maskReadHal {Ref PortName : Type} [DecidableEq Ref] [DecidableEq PortName] :
    Hal (MockState Ref PortName) Ref PortName where
  core_util_critical_section_enter := fun s => { s with depth := s.depth + 1 }
  core_util_critical_section_exit := fun s => { s with depth := s.depth - 1 }
  port_init := fun obj port mask _ s =>
    { s with objs := Function.update s.objs obj { port := port, mask := mask } }
  port_write := fun obj value s =>
    let d := s.objs obj
    { s with reg := Function.update s.reg d.port (mergeBits (s.reg d.port) value d.mask) }
  port_read := fun obj s => (Int.land (s.reg (s.objs obj).port) (s.objs obj).mask, s)

/-- A mock world over the masking test double: from `MockState.zero`, handle `0` is
constructed on port 0 with the default mask and handle `1` on port 1 with mask `0xF0`;
then `0x0F` is written through handle `0` and `0xF0` through handle `1`. -/
def fullMaskPorts : MockState Nat Nat :=
  PortOut.write maskHal (PortOut.mk 1) 0xF0
    (PortOut.write maskHal (PortOut.mk 0) 0x0F
      (PortOut.PortOut maskHal (PortOut.mk 1) 1 0xF0
        (PortOut.PortOut_default maskHal (PortOut.mk 0) 0 MockState.zero)))

/-! ## Reading a log -/

/-- The calls appended to the log `before` to reach the log `after`. -/
def newCalls {Ref PortName : Type} (before after : List (HalCall Ref PortName)) :
    List (HalCall Ref PortName) :=
  after.drop before.length

/-- Whether a call is `port_init` or a critical-section enter or exit. -/
def HalCall.isSetup {Ref PortName : Type} : HalCall Ref PortName → Bool
  | HalCall.critical_section_enter => true
  | HalCall.critical_section_exit => true
  | HalCall.port_init _ _ _ _ => true
  | HalCall.port_write _ _ => false
  | HalCall.port_read _ => false

/-- The value range of a 32-bit `int`. -/
def isInt32 (v : Int) : Prop := -2 ^ 31 ≤ v ∧ v < 2 ^ 31

instance (v : Int) : Decidable (isInt32 v) := by unfold isInt32; infer_instance

/-! ## Bit-level facts about `Int` -/

theorem int_eq_of_testBit_eq : ∀ (m n : Int), (∀ k, Int.testBit m k = Int.testBit n k) → m = n
  | Int.ofNat m, Int.ofNat n, h => by
      congr 1
      exact Nat.eq_of_testBit_eq (fun k => by simpa [Int.testBit] using h k)
  | Int.negSucc m, Int.negSucc n, h => by
      congr 1
      exact Nat.eq_of_testBit_eq (fun k => by simpa [Int.testBit] using h k)
  | Int.ofNat m, Int.negSucc n, h => by
      exfalso
      have hm : m < 2 ^ (m + n) :=
        Nat.lt_of_lt_of_le (Nat.lt_two_pow m) (Nat.pow_le_pow_right (by norm_num) (Nat.le_add_right m n))
      have hn : n < 2 ^ (m + n) :=
        Nat.lt_of_lt_of_le (Nat.lt_two_pow n) (Nat.pow_le_pow_right (by norm_num) (Nat.le_add_left n m))
      have := h (m + n)
      simp [Int.testBit, Nat.testBit_lt_two_pow hm, Nat.testBit_lt_two_pow hn] at this
  | Int.negSucc m, Int.ofNat n, h => by
      exfalso
      have hm : m < 2 ^ (m + n) :=
        Nat.lt_of_lt_of_le (Nat.lt_two_pow m) (Nat.pow_le_pow_right (by norm_num) (Nat.le_add_right m n))
      have hn : n < 2 ^ (m + n) :=
        Nat.lt_of_lt_of_le (Nat.lt_two_pow n) (Nat.pow_le_pow_right (by norm_num) (Nat.le_add_left n m))
      have := h (m + n)
      simp [Int.testBit, Nat.testBit_lt_two_pow hm, Nat.testBit_lt_two_pow hn] at this

/-- Replacing the bits selected by `m` with those of `v` and then keeping the bits
selected by `m` gives the bits of `v` selected by `m`. -/
theorem land_merge (o v m : Int) :
    Int.land (Int.lor (Int.land o (Int.lnot m)) (Int.land v m)) m = Int.land v m := by
  apply int_eq_of_testBit_eq
  intro k
  simp only [Int.testBit_land, Int.testBit_lor, Int.testBit_lnot]
  cases Int.testBit o k <;> cases Int.testBit v k <;> cases Int.testBit m k <;> rfl

/-! ## Facts shared by several properties -/

section shared

variable {σ Ref PortName : Type}

theorem newCalls_append (log t : List (HalCall Ref PortName)) : newCalls log (log ++ t) = t := by
  simp [newCalls]

theorem traced_write (hal : Hal σ Ref PortName) (h : PortOut Ref) (value : Int) (s : σ)
    (log : List (HalCall Ref PortName)) :
    PortOut.write (traced hal) h value (s, log)
      = (hal.port_write h._port value s, log ++ [HalCall.port_write h._port value]) := rfl

theorem traced_read (hal : Hal σ Ref PortName) (h : PortOut Ref) (s : σ)
    (log : List (HalCall Ref PortName)) :
    PortOut.read (traced hal) h (s, log)
      = ((hal.port_read h._port s).1, ((hal.port_read h._port s).2,
          log ++ [HalCall.port_read h._port])) := rfl

theorem traced_ctor (hal : Hal σ Ref PortName) (h : PortOut Ref) (port : PortName) (mask : Int)
    (s : σ) (log : List (HalCall Ref PortName)) :
    PortOut.PortOut (traced hal) h port mask (s, log)
      = (PortOut.PortOut hal h port mask s,
          log ++ [HalCall.critical_section_enter,
            HalCall.port_init h._port port mask PinDirection.PIN_OUTPUT,
            HalCall.critical_section_exit]) := by
  simp [PortOut.PortOut, traced]

theorem traced_assign (hal : Hal σ Ref PortName) (a b : PortOut Ref) (s : σ)
    (log : List (HalCall Ref PortName)) :
    PortOut.operator_assign (traced hal) a b (s, log)
      = (a, (hal.port_write a._port (hal.port_read b._port s).1 (hal.port_read b._port s).2,
          log ++ [HalCall.port_read b._port,
            HalCall.port_write a._port (hal.port_read b._port s).1])) := by
  simp [PortOut.operator_assign, PortOut.read, PortOut.write, traced]

theorem exact_write_read [DecidableEq Ref] [DecidableEq PortName] (m : MockState Ref PortName)
    (h : PortOut Ref) (v : Int) :
    (PortOut.read exactHal h (PortOut.write exactHal h v m)).1 = v := by
  simp [PortOut.read, PortOut.write, exactHal]

theorem mask_write_read [DecidableEq Ref] [DecidableEq PortName] (m : MockState Ref PortName)
    (h : PortOut Ref) (v : Int) :
    (PortOut.read maskHal h (PortOut.write maskHal h v m)).1
      = mergeBits (m.reg (m.objs h._port).port) v (m.objs h._port).mask := by
  simp [PortOut.read, PortOut.write, maskHal]

theorem mask_ctor_objs [DecidableEq Ref] [DecidableEq PortName] (m : MockState Ref PortName)
    (h : PortOut Ref) (port : PortName) (mask : Int) :
    (PortOut.PortOut maskHal h port mask m).objs h._port = { port := port, mask := mask } := by
  simp [PortOut.PortOut, maskHal]

theorem testBit_neg_one (k : Nat) : Int.testBit (-1) k = true := by
  have h : (-1 : Int) = Int.negSucc 0 := rfl
  rw [h]
  simp [Int.testBit]

/-- With every mask bit set a masked write replaces the whole register. -/
theorem mergeBits_neg_one (o v : Int) : mergeBits o v (-1) = v := by
  apply int_eq_of_testBit_eq
  intro k
  simp only [mergeBits, Int.testBit_land, Int.testBit_lor, Int.testBit_lnot, testBit_neg_one]
  cases Int.testBit o k <;> cases Int.testBit v k <;> rfl

theorem defaultMask_eq : defaultMask = -1 := by decide

/-- A masked write into a clear register leaves the masked bits of the value. -/
theorem mergeBits_zero_left (v m : Int) : mergeBits 0 v m = Int.land v m := by
  apply int_eq_of_testBit_eq
  intro k
  have h0 : Int.testBit 0 k = false := by
    have h : (0 : Int) = Int.ofNat 0 := rfl
    rw [h]; simp [Int.testBit]
  simp only [mergeBits, Int.testBit_land, Int.testBit_lor, Int.testBit_lnot, h0]
  simp

theorem land_neg_one (x : Int) : Int.land x (-1) = x := by
  apply int_eq_of_testBit_eq
  intro k
  simp only [Int.testBit_land, testBit_neg_one]
  cases Int.testBit x k <;> rfl

/-- A masked write of `v` over `o` yields `v` exactly when `o` and `v` agree on the bits
outside the mask. -/
theorem mergeBits_eq_iff (o v m : Int) :
    mergeBits o v m = v ↔ Int.land o (Int.lnot m) = Int.land v (Int.lnot m) := by
  constructor
  · intro h
    apply int_eq_of_testBit_eq
    intro k
    have hk := congrArg (fun x => Int.testBit x k) h
    simp only [mergeBits, Int.testBit_land, Int.testBit_lor, Int.testBit_lnot] at hk
    simp only [Int.testBit_land, Int.testBit_lnot]
    revert hk
    cases Int.testBit o k <;> cases Int.testBit v k <;> cases Int.testBit m k <;> simp
  · intro h
    apply int_eq_of_testBit_eq
    intro k
    have hk := congrArg (fun x => Int.testBit x k) h
    simp only [Int.testBit_land, Int.testBit_lnot] at hk
    simp only [mergeBits, Int.testBit_land, Int.testBit_lor, Int.testBit_lnot]
    revert hk
    cases Int.testBit o k <;> cases Int.testBit v k <;> cases Int.testBit m k <;> simp

/-- Masked read after a masked write of an already masked value, seen through the
writer's mask. -/
theorem masked_read_merge (o v mb ma : Int) :
    Int.land (Int.land (mergeBits o (Int.land v mb) ma) ma) ma
      = Int.land (Int.land v mb) ma := by
  apply int_eq_of_testBit_eq
  intro k
  simp only [mergeBits, Int.testBit_land, Int.testBit_lor, Int.testBit_lnot]
  cases Int.testBit o k <;> cases Int.testBit v k <;> cases Int.testBit mb k <;>
    cases Int.testBit ma k <;> rfl

/-- On one register, the masked reads through two masks after a masked write of the
register's own masked value agree on the writer's mask. -/
theorem masked_read_same (r mb ma : Int) :
    Int.land (Int.land (mergeBits r (Int.land r mb) ma) ma) ma
      = Int.land (Int.land (mergeBits r (Int.land r mb) ma) mb) ma := by
  apply int_eq_of_testBit_eq
  intro k
  simp only [mergeBits, Int.testBit_land, Int.testBit_lor, Int.testBit_lnot]
  cases Int.testBit r k <;> cases Int.testBit mb k <;> cases Int.testBit ma k <;> rfl

end shared

/-! ## Properties -/

section properties

variable {σ Ref PortName : Type}

/-- C1: over the mock HAL that stores exactly what it is told, for every port, mask and
32-bit integer `v` with `v & mask = v`, constructing a `PortOut` with `(port, mask)`,
then `write(v)`, then `read()` returns `v`. -/
theorem C1_write_read_roundtrip [DecidableEq Ref] [DecidableEq PortName]
    (s : MockState Ref PortName) (h : PortOut Ref) (port : PortName) (mask v : Int)
    (_h32 : isInt32 v) (_hv : Int.land v mask = v) :
    (PortOut.read exactHal h
      (PortOut.write exactHal h v (PortOut.PortOut exactHal h port mask s))).1 = v :=
  exact_write_read _ h v

/-- C1, the documented scenario: with mask `0x00B40000`, `write(0x00B40000)` then `read()`
gives `0x00B40000`, then `write(0)` then `read()` gives `0`. -/
theorem C1_write_read_roundtrip_witness :
    (isInt32 0x00B40000 ∧ Int.land 0x00B40000 0x00B40000 = 0x00B40000) ∧
    (PortOut.read exactHal (PortOut.mk 0)
      (PortOut.write exactHal (PortOut.mk 0) 0x00B40000
        (PortOut.PortOut exactHal (PortOut.mk 0) 1 0x00B40000 MockState.zero))).1 = 0x00B40000 ∧
    (PortOut.read exactHal (PortOut.mk 0)
      (PortOut.write exactHal (PortOut.mk 0) 0
        (PortOut.read exactHal (PortOut.mk 0)
          (PortOut.write exactHal (PortOut.mk 0) 0x00B40000
            (PortOut.PortOut exactHal (PortOut.mk 0) 1 0x00B40000 MockState.zero))).2)).1 = 0 :=
  ⟨⟨by decide, by decide⟩,
    C1_write_read_roundtrip MockState.zero (PortOut.mk 0) 1 0x00B40000 0x00B40000
      (by decide) (by decide),
    by decide⟩

/-- C2: `write(value)` makes exactly one HAL call, `port_write` on the handle's own
`_port` with exactly `value`, and leaves the world as that call leaves it; this holds in
every state, in particular right after construction with any mask, a mask of 0 included,
over a HAL that honours the mask. -/
theorem C2_write_forwards_verbatim (hal : Hal σ Ref PortName) (h : PortOut Ref) (value : Int)
    (s : σ) (log : List (HalCall Ref PortName)) :
    PortOut.write hal h value s = hal.port_write h._port value s ∧
    PortOut.write (traced hal) h value (s, log)
      = (hal.port_write h._port value s, log ++ [HalCall.port_write h._port value]) ∧
    newCalls log (PortOut.write (traced hal) h value (s, log)).2
      = [HalCall.port_write h._port value] ∧
    (∀ [DecidableEq Ref] [DecidableEq PortName] (m : MockState Ref PortName) (port : PortName)
      (mask : Int) (l : List (HalCall Ref PortName)),
      newCalls (PortOut.PortOut (traced maskHal) h port mask (m, l)).2
        (PortOut.write (traced maskHal) h value
          (PortOut.PortOut (traced maskHal) h port mask (m, l))).2
        = [HalCall.port_write h._port value]) := by
  refine ⟨rfl, rfl, ?_, ?_⟩
  · rw [traced_write]; exact newCalls_append _ _
  · intro _ _ m port mask l
    rw [traced_ctor, traced_write]; exact newCalls_append _ _

/-- C3: over the mock HAL that applies the construction mask on write, for every port,
mask and value, constructing a `PortOut` with `(port, mask)`, then `write(value)`, then
`read()` returns `r` with `r & mask = value & mask`. -/
theorem C3_masked_write_read [DecidableEq Ref] [DecidableEq PortName]
    (s : MockState Ref PortName) (h : PortOut Ref) (port : PortName) (mask value : Int) :
    Int.land (PortOut.read maskHal h
      (PortOut.write maskHal h value (PortOut.PortOut maskHal h port mask s))).1 mask
      = Int.land value mask := by
  rw [mask_write_read, mask_ctor_objs]
  exact land_merge _ _ _

/-- C4: construction performs exactly critical-section enter, one `port_init` on the
handle's own `_port` with the given port, the given mask and `PIN_OUTPUT`, critical-section
exit, in this order; the nesting depth of the test doubles is the same after construction
as before; and `write`, `read`, both assignments and the integer conversion make no
`port_init`, enter or exit call. -/
theorem C4_construction_calls (hal : Hal σ Ref PortName) (h : PortOut Ref) (port : PortName)
    (mask : Int) (s : σ) (log : List (HalCall Ref PortName)) :
    PortOut.PortOut (traced hal) h port mask (s, log)
      = (hal.core_util_critical_section_exit
          (hal.port_init h._port port mask PinDirection.PIN_OUTPUT
            (hal.core_util_critical_section_enter s)),
          log ++ [HalCall.critical_section_enter,
            HalCall.port_init h._port port mask PinDirection.PIN_OUTPUT,
            HalCall.critical_section_exit]) ∧
    (∀ [DecidableEq Ref] [DecidableEq PortName] (m : MockState Ref PortName),
      (PortOut.PortOut exactHal h port mask m).depth = m.depth ∧
      (PortOut.PortOut maskHal h port mask m).depth = m.depth) ∧
    (∀ (o rhs : PortOut Ref) (v : Int) (t : σ) (l : List (HalCall Ref PortName)),
      (∀ c ∈ newCalls l (PortOut.write (traced hal) o v (t, l)).2, c.isSetup = false) ∧
      (∀ c ∈ newCalls l (PortOut.read (traced hal) o (t, l)).2.2, c.isSetup = false) ∧
      (∀ c ∈ newCalls l (PortOut.operator_assign_int (traced hal) o v (t, l)).2.2,
        c.isSetup = false) ∧
      (∀ c ∈ newCalls l (PortOut.operator_assign (traced hal) o rhs (t, l)).2.2,
        c.isSetup = false) ∧
      (∀ c ∈ newCalls l (PortOut.operator_int (traced hal) o (t, l)).2.2,
        c.isSetup = false)) := by
  refine ⟨traced_ctor hal h port mask s log, ?_, ?_⟩
  · intro _ _ m
    constructor <;> simp [PortOut.PortOut, exactHal, maskHal]
  · intro o rhs v t l
    refine ⟨?_, ?_, ?_, ?_, ?_⟩
    · rw [traced_write, newCalls_append]; simp [HalCall.isSetup]
    · rw [traced_read, newCalls_append]; simp [HalCall.isSetup]
    · simp only [PortOut.operator_assign_int]
      rw [traced_write, newCalls_append]; simp [HalCall.isSetup]
    · rw [traced_assign, newCalls_append]; simp [HalCall.isSetup]
    · simp only [PortOut.operator_int]
      rw [traced_read, newCalls_append]; simp [HalCall.isSetup]

/-- C5: the integer conversion and `read()` return the same value and leave the same
state, from every state of every HAL, and each makes exactly one HAL call, `port_read` on
the handle's own `_port`. -/
theorem C5_conversion_agrees_with_read (hal : Hal σ Ref PortName) (h : PortOut Ref) (s : σ)
    (log : List (HalCall Ref PortName)) :
    PortOut.operator_int hal h s = PortOut.read hal h s ∧
    PortOut.operator_int (traced hal) h (s, log) = PortOut.read (traced hal) h (s, log) ∧
    newCalls log (PortOut.operator_int (traced hal) h (s, log)).2.2
      = [HalCall.port_read h._port] ∧
    newCalls log (PortOut.read (traced hal) h (s, log)).2.2 = [HalCall.port_read h._port] := by
  refine ⟨rfl, rfl, ?_, ?_⟩
  · simp only [PortOut.operator_int]
    rw [traced_read]; exact newCalls_append _ _
  · rw [traced_read]; exact newCalls_append _ _

/-- C6: `h = value` leaves the same HAL state and the same sequence of HAL calls as
`h.write(value)`, and its result is the handle `h` itself. -/
theorem C6_assign_int_is_write (hal : Hal σ Ref PortName) (h : PortOut Ref) (value : Int)
    (s : σ) (log : List (HalCall Ref PortName)) :
    PortOut.operator_assign_int hal h value s = (h, PortOut.write hal h value s) ∧
    (PortOut.operator_assign_int (traced hal) h value (s, log)).2
      = PortOut.write (traced hal) h value (s, log) ∧
    (PortOut.operator_assign_int (traced hal) h value (s, log)).1 = h :=
  ⟨rfl, rfl, rfl⟩

/-- C7: `a = b` leaves the same HAL state and the same sequence of HAL calls as
`a.write(b.read())`: one `port_read` on `b._port`, then one `port_write` on `a._port`
with the value read; the result is `a` itself, with its own `_port`, and over the test
doubles no `port_t` object (port or mask) is changed. -/
theorem C7_assign_handle_is_write_read (hal : Hal σ Ref PortName) (a b : PortOut Ref) (s : σ)
    (log : List (HalCall Ref PortName)) :
    PortOut.operator_assign hal a b s
      = (a, PortOut.write hal a (PortOut.read hal b s).1 (PortOut.read hal b s).2) ∧
    (PortOut.operator_assign (traced hal) a b (s, log)).2
      = PortOut.write (traced hal) a (PortOut.read (traced hal) b (s, log)).1
          (PortOut.read (traced hal) b (s, log)).2 ∧
    newCalls log (PortOut.operator_assign (traced hal) a b (s, log)).2.2
      = [HalCall.port_read b._port,
          HalCall.port_write a._port (hal.port_read b._port s).1] ∧
    (PortOut.operator_assign (traced hal) a b (s, log)).1 = a ∧
    (∀ [DecidableEq Ref] [DecidableEq PortName] (m : MockState Ref PortName),
      (PortOut.operator_assign exactHal a b m).2.objs = m.objs ∧
      (PortOut.operator_assign maskHal a b m).2.objs = m.objs) := by
  refine ⟨rfl, rfl, ?_, rfl, ?_⟩
  · rw [traced_assign]; exact newCalls_append _ _
  · intro _ _ m
    exact ⟨rfl, rfl⟩

/-- C8, refuted as stated: over the masking test double, with `a` on port 0 under mask
`0x0F` and `b` on port 1 under mask `0xF0` after `b.write(0xF0)`, the assignment `a = b`
is followed by `a.read() = 0` and `b.read() = 0xF0`. -/
theorem C8_reads_differ_across_masks :
    (PortOut.read maskHal (PortOut.mk 0)
      (PortOut.operator_assign maskHal (PortOut.mk 0) (PortOut.mk 1)
        (PortOut.write maskHal (PortOut.mk 1) 0xF0 twoPorts)).2).1 = 0 ∧
    (PortOut.read maskHal (PortOut.mk 1)
      (PortOut.read maskHal (PortOut.mk 0)
        (PortOut.operator_assign maskHal (PortOut.mk 0) (PortOut.mk 1)
          (PortOut.write maskHal (PortOut.mk 1) 0xF0 twoPorts)).2).2).1 = 0xF0 ∧
    (PortOut.read maskHal (PortOut.mk 0)
      (PortOut.operator_assign maskHal (PortOut.mk 0) (PortOut.mk 1)
        (PortOut.write maskHal (PortOut.mk 1) 0xF0 twoPorts)).2).1
      ≠ (PortOut.read maskHal (PortOut.mk 1)
          (PortOut.read maskHal (PortOut.mk 0)
            (PortOut.operator_assign maskHal (PortOut.mk 0) (PortOut.mk 1)
              (PortOut.write maskHal (PortOut.mk 1) 0xF0 twoPorts)).2).2).1 := by
  have ha : (PortOut.read maskHal (PortOut.mk 0)
      (PortOut.operator_assign maskHal (PortOut.mk 0) (PortOut.mk 1)
        (PortOut.write maskHal (PortOut.mk 1) 0xF0 twoPorts)).2).1 = 0 := by
    simp [PortOut.read, PortOut.operator_assign, PortOut.write, PortOut.PortOut, maskHal,
      twoPorts, MockState.zero, Function.update_apply, mergeBits_zero_left]
    decide
  have hb : (PortOut.read maskHal (PortOut.mk 1)
      (PortOut.read maskHal (PortOut.mk 0)
        (PortOut.operator_assign maskHal (PortOut.mk 0) (PortOut.mk 1)
          (PortOut.write maskHal (PortOut.mk 1) 0xF0 twoPorts)).2).2).1 = 0xF0 := by
    simp [PortOut.read, PortOut.operator_assign, PortOut.write, PortOut.PortOut, maskHal,
      twoPorts, MockState.zero, Function.update_apply, mergeBits_zero_left]
    decide
  refine ⟨ha, hb, ?_⟩
  rw [ha, hb]
  decide

/-- C8, amended: after `a = b`, for all handles, ports, masks and states: over the
mock HAL that stores exactly what it is told the subsequent `a.read()` and `b.read()`
return the same value; over the masking test double they agree on every bit selected by
the mask of `a`, they return the same value exactly when the registers of the two ports
agreed outside the mask of `a` before the assignment, in particular when that mask has
all bits set; and the agreement on the bits selected by the mask of `a` also holds when
the masking test double reads back only the masked bits. -/
theorem C8_reads_agree_after_assign [DecidableEq Ref] [DecidableEq PortName]
    (a b : PortOut Ref) (s : MockState Ref PortName) :
    (PortOut.read exactHal a (PortOut.operator_assign exactHal a b s).2).1
      = (PortOut.read exactHal b
          (PortOut.read exactHal a (PortOut.operator_assign exactHal a b s).2).2).1 ∧
    Int.land (PortOut.read maskHal a (PortOut.operator_assign maskHal a b s).2).1
        (s.objs a._port).mask
      = Int.land (PortOut.read maskHal b
          (PortOut.read maskHal a (PortOut.operator_assign maskHal a b s).2).2).1
        (s.objs a._port).mask ∧
    ((PortOut.read maskHal a (PortOut.operator_assign maskHal a b s).2).1
        = (PortOut.read maskHal b
            (PortOut.read maskHal a (PortOut.operator_assign maskHal a b s).2).2).1
      ↔ Int.land (s.reg (s.objs a._port).port) (Int.lnot (s.objs a._port).mask)
        = Int.land (s.reg (s.objs b._port).port) (Int.lnot (s.objs a._port).mask)) ∧
    ((s.objs a._port).mask = -1 →
      (PortOut.read maskHal a (PortOut.operator_assign maskHal a b s).2).1
        = (PortOut.read maskHal b
            (PortOut.read maskHal a (PortOut.operator_assign maskHal a b s).2).2).1) ∧
    Int.land (PortOut.read maskReadHal a (PortOut.operator_assign maskReadHal a b s).2).1
        (s.objs a._port).mask
      = Int.land (PortOut.read maskReadHal b
          (PortOut.read maskReadHal a (PortOut.operator_assign maskReadHal a b s).2).2).1
        (s.objs a._port).mask := by
  have hagree : Int.land (PortOut.read maskHal a (PortOut.operator_assign maskHal a b s).2).1
        (s.objs a._port).mask
      = Int.land (PortOut.read maskHal b
          (PortOut.read maskHal a (PortOut.operator_assign maskHal a b s).2).2).1
        (s.objs a._port).mask := by
    simp only [PortOut.read, PortOut.operator_assign, PortOut.write, maskHal]
    by_cases hp : (s.objs b._port).port = (s.objs a._port).port
    · simp [Function.update_apply, hp]
    · simp only [Function.update_apply, hp, if_true, if_false]
      exact land_merge _ _ _
  refine ⟨?_, hagree, ?_, ?_, ?_⟩
  · simp only [PortOut.read, PortOut.operator_assign, PortOut.write, exactHal]
    by_cases hp : (s.objs b._port).port = (s.objs a._port).port
    · simp [Function.update_apply, hp]
    · simp [Function.update_apply, hp]
  · simp only [PortOut.read, PortOut.operator_assign, PortOut.write, maskHal]
    by_cases hp : (s.objs b._port).port = (s.objs a._port).port
    · simp [Function.update_apply, hp]
    · simp only [Function.update_apply, hp, if_true, if_false]
      exact mergeBits_eq_iff _ _ _
  · intro hm
    have h := hagree
    rw [hm, land_neg_one, land_neg_one] at h
    exact h
  · simp only [PortOut.read, PortOut.operator_assign, PortOut.write, maskReadHal]
    by_cases hp : (s.objs b._port).port = (s.objs a._port).port
    · simp only [Function.update_apply, hp, if_true]
      exact masked_read_same _ _ _
    · simp only [Function.update_apply, hp, if_true, if_false]
      exact masked_read_merge _ _ _ _

/-- C8, amended, at a concrete input: `a` under the default mask on port 0 showing `0x0F`,
`b` under mask `0xF0` on port 1 showing `0xF0`; after `a = b` both read `0xF0`. -/
theorem C8_reads_agree_after_assign_witness :
    (fullMaskPorts.objs (PortOut.mk 0)._port).mask = -1 ∧
    (PortOut.read maskHal (PortOut.mk 0) fullMaskPorts).1 = 0x0F ∧
    (PortOut.read maskHal (PortOut.mk 1) fullMaskPorts).1 = 0xF0 ∧
    (PortOut.read maskHal (PortOut.mk 0)
      (PortOut.operator_assign maskHal (PortOut.mk 0) (PortOut.mk 1) fullMaskPorts).2).1
      = 0xF0 ∧
    (PortOut.read maskHal (PortOut.mk 0)
      (PortOut.operator_assign maskHal (PortOut.mk 0) (PortOut.mk 1) fullMaskPorts).2).1
      = (PortOut.read maskHal (PortOut.mk 1)
          (PortOut.read maskHal (PortOut.mk 0)
            (PortOut.operator_assign maskHal (PortOut.mk 0) (PortOut.mk 1)
              fullMaskPorts).2).2).1 := by
  have hm : (fullMaskPorts.objs (PortOut.mk 0)._port).mask = -1 := by
    simp [fullMaskPorts, PortOut.write, PortOut.PortOut, PortOut.PortOut_default, maskHal,
      MockState.zero, Function.update_apply, defaultMask_eq]
  refine ⟨hm, ?_, ?_, ?_,
    (C8_reads_agree_after_assign (PortOut.mk 0) (PortOut.mk 1) fullMaskPorts).2.2.2.1 hm⟩
  · simp [fullMaskPorts, PortOut.read, PortOut.write, PortOut.PortOut,
      PortOut.PortOut_default, maskHal, MockState.zero, Function.update_apply,
      defaultMask_eq, mergeBits_neg_one, mergeBits_zero_left]
  · simp [fullMaskPorts, PortOut.read, PortOut.write, PortOut.PortOut,
      PortOut.PortOut_default, maskHal, MockState.zero, Function.update_apply,
      defaultMask_eq, mergeBits_neg_one, mergeBits_zero_left]
    decide
  · simp [fullMaskPorts, PortOut.read, PortOut.operator_assign, PortOut.write,
      PortOut.PortOut, PortOut.PortOut_default, maskHal, MockState.zero,
      Function.update_apply, defaultMask_eq, mergeBits_neg_one, mergeBits_zero_left]
    decide

/-- C9: construction without a mask argument passes to `port_init` the literal
`0xFFFFFFFF` converted to `int`, which is `-1`, congruent to `0xFFFFFFFF` modulo `2^32`,
with each of its 32 bits set; over the masking test double every bit written through such
a handle is read back. -/
theorem C9_default_mask_all_pins (hal : Hal σ Ref PortName) (h : PortOut Ref) (port : PortName)
    (s : σ) (log : List (HalCall Ref PortName)) :
    defaultMask = -1 ∧ defaultMask % 2 ^ 32 = 0xFFFFFFFF ∧
    (∀ i, i < 32 → Int.testBit defaultMask i = true) ∧
    PortOut.PortOut_default (traced hal) h port (s, log)
      = (PortOut.PortOut_default hal h port s,
          log ++ [HalCall.critical_section_enter,
            HalCall.port_init h._port port (-1) PinDirection.PIN_OUTPUT,
            HalCall.critical_section_exit]) ∧
    (∀ [DecidableEq Ref] [DecidableEq PortName] (m : MockState Ref PortName) (v : Int),
      (PortOut.read maskHal h
        (PortOut.write maskHal h v (PortOut.PortOut_default maskHal h port m))).1 = v) := by
  refine ⟨defaultMask_eq, by decide, ?_, ?_, ?_⟩
  · intro i _
    rw [defaultMask_eq]; exact testBit_neg_one i
  · simp only [PortOut.PortOut_default]
    rw [traced_ctor, defaultMask_eq]
  · intro _ _ m v
    simp only [PortOut.PortOut_default]
    rw [mask_write_read, mask_ctor_objs, defaultMask_eq]
    exact mergeBits_neg_one _ _

/-- C10: `a = b = v` is `b.write(v)` followed by `a.write(b.read())`: the HAL calls are
`port_write` on `b._port` with `v`, `port_read` on `b._port`, `port_write` on `a._port`
with the value just read.  Over the mock HAL that stores exactly what it is told that
value is `v`; over the masking test double, with `b` under mask `0xF0` and `v = 0xFF`,
`a` is written with the read-back `0xF0`, not with `0xFF`. -/
theorem C10_chained_assign_reads_back (hal : Hal σ Ref PortName) (a b : PortOut Ref) (v : Int)
    (s : σ) (log : List (HalCall Ref PortName)) :
    PortOut.chained_assign hal a b v s
      = (a, PortOut.write hal a (PortOut.read hal b (PortOut.write hal b v s)).1
          (PortOut.read hal b (PortOut.write hal b v s)).2) ∧
    newCalls log (PortOut.chained_assign (traced hal) a b v (s, log)).2.2
      = [HalCall.port_write b._port v, HalCall.port_read b._port,
          HalCall.port_write a._port (hal.port_read b._port (hal.port_write b._port v s)).1] ∧
    (∀ [DecidableEq Ref] [DecidableEq PortName] (m : MockState Ref PortName),
      (PortOut.read exactHal b (PortOut.write exactHal b v m)).1 = v) ∧
    newCalls [] (PortOut.chained_assign (traced maskHal) (PortOut.mk 0) (PortOut.mk 1) 0xFF
        (twoPorts, [])).2.2
      = [HalCall.port_write 1 0xFF, HalCall.port_read 1, HalCall.port_write 0 0xF0] := by
  refine ⟨rfl, ?_, ?_, ?_⟩
  · simp only [PortOut.chained_assign, PortOut.operator_assign_int]
    rw [traced_write, traced_assign, List.append_assoc]
    exact newCalls_append _ _
  · intro _ _ m
    exact exact_write_read m b v
  · simp [PortOut.chained_assign, PortOut.operator_assign_int, PortOut.operator_assign,
      PortOut.read, PortOut.write, PortOut.PortOut, traced, maskHal, twoPorts, MockState.zero,
      newCalls, Function.update_apply, mergeBits_zero_left]
    decide

end properties

end mbed
